import Mathlib

/-!
Verification of the microblog social-graph and timeline layer.

The definitions below are a shallow embedding of `app/models.py`,
`app/routes.py` and `app/forms.py`.  The relational store is a `State`
record holding the `user` table, the `post` table and the `followers`
association table (a list of `(follower_id, followed_id)` pairs whose
composite primary key guarantees at most one row per ordered pair).
Timestamps are natural numbers; SQL queries become list computations.
-/

namespace Microblog

/-- A row of the `user` table (`models.py`, class `User`): surrogate id,
unique `username` and `email`, optional password hash and profile text. -/
structure User where
  id : Nat
  username : String
  email : String
  pwd_hash : Option String
  about_me : Option String
deriving DecidableEq, Repr

/-- A row of the `post` table (`models.py`, class `Post`): body bounded to
140 chars, creation timestamp, `user_id` foreign key to the author. -/
structure Post where
  id : Nat
  body : String
  timestamp : Nat
  user_id : Nat
deriving DecidableEq, Repr

/-- The database: the three tables managed by the model layer.  The
`followers` association table (`models.py` lines 19-24) stores pairs
`(follower_id, followed_id)`, both foreign keys into `user`. -/
structure State where
  users : List User
  posts : List Post
  followers : List (Nat × Nat)
deriving DecidableEq, Repr

/-- `User.is_following` (`models.py` lines 93-95): the SQL existence check
`self.following.select().where(User.id == user.id)` — true exactly when
the row `(self.id, user.id)` is present in the association table. -/
def is_following (s : State) (self user : User) : Bool :=
  decide ((self.id, user.id) ∈ s.followers)

/-- `User.follow` (`models.py` lines 85-87): insert the edge unless it is
already present.  Note the source has no self-follow guard here. -/
def follow (s : State) (self user : User) : State :=
  if is_following s self user then s
  else { s with followers := (self.id, user.id) :: s.followers }

/-- `User.unfollow` (`models.py` lines 89-91): remove the edge if present.
The composite primary key means deleting the row `(self.id, user.id)`
is a filter on the association table. -/
def unfollow (s : State) (self user : User) : State :=
  if is_following s self user then
    { s with followers := s.followers.filter (fun e => decide (e ≠ (self.id, user.id))) }
  else s

/-- `User.followers_count` (`models.py` lines 101-103): cardinality of the
rows whose `followed_id` is this user. -/
def followers_count (s : State) (self : User) : Nat :=
  (s.followers.filter (fun e => decide (e.2 = self.id))).length

/-- `User.following_count` (`models.py` lines 105-107): cardinality of the
rows whose `follower_id` is this user. -/
def following_count (s : State) (self : User) : Nat :=
  (s.followers.filter (fun e => decide (e.1 = self.id))).length

/-- The `following` relationship view (`models.py` lines 64-66): ids of the
users this user follows, read off the shared association table. -/
def followingOf (s : State) (self : User) : List Nat :=
  (s.followers.filter (fun e => decide (e.1 = self.id))).map (fun e => e.2)

/-- The `followers` relationship view (`models.py` lines 68-70): ids of the
users following this user, read off the same association table. -/
def followersOf (s : State) (self : User) : List Nat :=
  (s.followers.filter (fun e => decide (e.2 = self.id))).map (fun e => e.1)

/-- Insert a post into a list kept in non-increasing timestamp order
(realises the `order_by(Post.timestamp.desc())` clause). -/
def insertDesc (p : Post) : List Post → List Post
  | [] => [p]
  | q :: qs => if q.timestamp ≤ p.timestamp then p :: q :: qs else q :: insertDesc p qs

/-- Sort posts by timestamp, descending. -/
def sortDesc : List Post → List Post
  | [] => []
  | p :: ps => insertDesc p (sortDesc ps)

/-- `User.following_posts` (`models.py` lines 120-131): the timeline query.
The SQL joins `Post` to its `Author` row, outer-joins the author's
`followers` rows aliased `Follower`, keeps rows where `Follower.id` is
`self.id` or `Author.id` is `self.id`, groups by post (dropping join
duplicates) and orders by timestamp descending. -/
def following_posts (s : State) (self : User) : List Post :=
  sortDesc (s.posts.filter (fun p =>
    decide (∃ a ∈ s.users, a.id = p.user_id ∧
      ((∃ f ∈ s.users, f.id = self.id ∧ (f.id, a.id) ∈ s.followers) ∨ a.id = self.id))))

/-- Model of the external werkzeug library contract used by
`User.set_password` and `User.check_password` (`models.py` lines 73-77):
a one-way salted hash whose verifier accepts exactly the tag produced
from the same raw password. -/
def generate_password_hash (pwd : String) : String :=
  "pbkdf2-sha256$" ++ pwd

/-- werkzeug `check_password_hash`: the hash comparison. -/
def check_password_hash (h pwd : String) : Bool :=
  decide (h = generate_password_hash pwd)

/-- `User.check_password` (`models.py` lines 76-77). -/
def check_password (u : User) (pwd : String) : Bool :=
  match u.pwd_hash with
  | some h => check_password_hash h pwd
  | none => false

/-- `RegistrationForm.validate_username` (`forms.py` lines 27-31): passes
exactly when no stored user already has this username. -/
def validate_username (s : State) (name : String) : Bool :=
  (s.users.find? (fun u => decide (u.username = name))).isNone

/-- `RegistrationForm.validate_email` (`forms.py` lines 33-37): passes
exactly when no stored user already has this email. -/
def validate_email (s : State) (email : String) : Bool :=
  (s.users.find? (fun u => decide (u.email = email))).isNone

/-- The autoincrement surrogate key for a fresh `user` row. -/
def next_user_id (s : State) : Nat :=
  (s.users.foldr (fun u m => max u.id m) 0) + 1

/-- Outcome of the registration route: the created user, or the
`DuplicateIdentity` rejection raised by the form validators. -/
inductive RegResult where
  | ok (u : User)
  | duplicateIdentity
deriving DecidableEq, Repr

/-- The `User` row built by the `register` view (`routes.py` lines 106-107):
`User(username=..., email=...)` followed by `set_password`. -/
def new_user (s : State) (name email pwd : String) : User :=
  { id := next_user_id s, username := name, email := email,
    pwd_hash := some (generate_password_hash pwd), about_me := none }

/-- The `register` view (`routes.py` lines 99-113): the form validators run
first; only when both pass is a `User` row built, its password hash set
(`user.set_password`), and the row committed.  A validator failure aborts
before any write, leaving the store unchanged. -/
def register (s : State) (name email pwd : String) : RegResult × State :=
  if validate_username s name && validate_email s email then
    (RegResult.ok (new_user s name email pwd),
      { s with users := s.users ++ [new_user s name email pwd] })
  else
    (RegResult.duplicateIdentity, s)

/-- The credential check of the `login` view (`routes.py` lines 67-69):
look the user up by exact username, then compare the password hash;
none when the user is absent or the comparison fails. -/
def verify_credentials (s : State) (name pwd : String) : Option User :=
  match s.users.find? (fun u => decide (u.username = name)) with
  | none => none
  | some u => if check_password u pwd then some u else none

/-- A JSON web token as built by `User.get_reset_password_token`
(`models.py` lines 134-138): the payload fields plus the signing key
(standing in for the HS256 signature). -/
structure Token where
  reset_password : Nat
  exp : Nat
  key : String
deriving DecidableEq, Repr

/-- `User.get_reset_password_token` (`models.py` lines 134-138): encodes
the user id and the expiry `time() + expires_in` under the application
secret.  The route layer calls it with the default `expires_in = 600`. -/
def get_reset_password_token (u : User) (secret : String) (now expires_in : Nat) : Token :=
  { reset_password := u.id, exp := now + expires_in, key := secret }

/-- Model of `jwt.decode` with HS256 and `exp` validation: decoding fails
when the signing key differs from the verification secret or the token
has expired (PyJWT rejects once `exp ≤ now`). -/
def jwt_decode (t : Token) (secret : String) (now : Nat) : Option Nat :=
  if t.key = secret ∧ now < t.exp then some t.reset_password else none

/-- `db.session.get(User, id)`: primary-key lookup in the `user` table. -/
def get_user_by_id (s : State) (id : Nat) : Option User :=
  s.users.find? (fun u => decide (u.id = id))

/-- `User.verify_reset_password_token` (`models.py` lines 140-150): decode
the token; any decoding failure is caught and yields none, otherwise the
user with the decoded id is loaded. -/
def verify_reset_password_token (s : State) (t : Token) (secret : String) (now : Nat) :
    Option User :=
  match jwt_decode t secret now with
  | none => none
  | some id => get_user_by_id s id

/-- Where a route handler redirects to after running. -/
inductive Redirect where
  | index
  | userPage
deriving DecidableEq, Repr

/-- The `follow` view (`routes.py` lines 168-188) on the validated-form
path: look the target up by username; if absent, flash and redirect to
the index; if the target is the current user, flash the warning — the
source has no `return` here (unlike the `unfollow` view, line 204), so
execution falls through — then call `current_user.follow(user)`, commit,
and flash the success message.  Returns the new state, the flashed
messages in order, and the redirect target. -/
def followRoute (s : State) (current : User) (username : String) :
    State × List String × Redirect :=
  match s.users.find? (fun u => decide (u.username = username)) with
  | none => (s, ["User " ++ username ++ " not found."], Redirect.index)
  | some user =>
    let warn := if user = current then ["Youn cannot follow yourself!"] else []
    (follow s current user, warn ++ ["Now following " ++ username ++ "!"], Redirect.userPage)

/-- Example user for concrete evaluations. -/
def alice : User :=
  { id := 1, username := "alice", email := "alice@example.com",
    pwd_hash := some (generate_password_hash "alicepw"), about_me := none }

/-- Example user for concrete evaluations. -/
def bob : User :=
  { id := 2, username := "bob", email := "bob@example.com",
    pwd_hash := some (generate_password_hash "bobpw"), about_me := none }

/-- Example post authored by bob. -/
def bobPost : Post :=
  { id := 1, body := "hi", timestamp := 1000, user_id := 2 }

/-- Example state: alice and bob registered, bob has one post, no edges. -/
def exState : State :=
  { users := [alice, bob], posts := [bobPost], followers := [] }

/-- Example state in which alice already follows bob. -/
def exStateF : State :=
  { users := [alice, bob], posts := [bobPost], followers := [(1, 2)] }

/-! ### Helper lemmas -/

/-- Membership is preserved by `insertDesc`. -/
theorem mem_insertDesc (p x : Post) (l : List Post) :
    x ∈ insertDesc p l ↔ x = p ∨ x ∈ l := by
  induction l with
  | nil => simp [insertDesc]
  | cons q qs ih =>
    by_cases h : q.timestamp ≤ p.timestamp
    · simp [insertDesc, h]
    · simp [insertDesc, h, ih]
      tauto

/-- Membership is preserved by `sortDesc`. -/
theorem mem_sortDesc (x : Post) (l : List Post) :
    x ∈ sortDesc l ↔ x ∈ l := by
  induction l with
  | nil => simp [sortDesc]
  | cons p ps ih => simp [sortDesc, mem_insertDesc, ih]

/-- `insertDesc` keeps the non-increasing timestamp order. -/
theorem pairwise_insertDesc (p : Post) (l : List Post)
    (h : l.Pairwise (fun a b => b.timestamp ≤ a.timestamp)) :
    (insertDesc p l).Pairwise (fun a b => b.timestamp ≤ a.timestamp) := by
  induction l with
  | nil => simp [insertDesc]
  | cons q qs ih =>
    rcases List.pairwise_cons.mp h with ⟨hq, hqs⟩
    by_cases hle : q.timestamp ≤ p.timestamp
    · simp only [insertDesc, if_pos hle]
      refine List.pairwise_cons.mpr ⟨?_, h⟩
      intro x hx
      rcases List.mem_cons.mp hx with rfl | hx
      · exact hle
      · exact le_trans (hq x hx) hle
    · simp only [insertDesc, if_neg hle]
      refine List.pairwise_cons.mpr ⟨?_, ih hqs⟩
      intro x hx
      rcases (mem_insertDesc p x qs).mp hx with rfl | hx
      · exact le_of_lt (Nat.lt_of_not_le hle)
      · exact hq x hx

/-- `sortDesc` produces a list in non-increasing timestamp order. -/
theorem pairwise_sortDesc (l : List Post) :
    (sortDesc l).Pairwise (fun a b => b.timestamp ≤ a.timestamp) := by
  induction l with
  | nil => simp [sortDesc]
  | cons p ps ih => exact pairwise_insertDesc p (sortDesc ps) ih

/-- After `follow s a b`, the row `(a.id, b.id)` is present. -/
theorem is_following_follow (s : State) (a b : User) :
    is_following (follow s a b) a b = true := by
  unfold follow
  by_cases h : (a.id, b.id) ∈ s.followers
  · simp [is_following, h]
  · simp [is_following, h]

/-- Primary-key lookup: with unique ids, `find?` on the id returns the
stored row itself. -/
theorem find_by_id (l : List User) (u : User) (hu : u ∈ l)
    (hnd : (l.map User.id).Nodup) :
    l.find? (fun x => decide (x.id = u.id)) = some u := by
  induction l with
  | nil => cases hu
  | cons x xs ih =>
    rw [List.map_cons] at hnd
    rcases List.mem_cons.mp hu with rfl | hu
    · simp [List.find?]
    · have hx : x.id ≠ u.id := by
        have hmem : u.id ∈ xs.map User.id := List.mem_map_of_mem User.id hu
        have hni := (List.nodup_cons.mp hnd).1
        intro hcontra
        exact hni (hcontra ▸ hmem)
      have hnd2 : (xs.map User.id).Nodup := (List.nodup_cons.mp hnd).2
      simp [List.find?, hx, ih hu hnd2]

/-- A `follow` on an existing edge leaves the state unchanged. -/
theorem follow_of_following (s : State) (a b : User)
    (h : is_following s a b = true) : follow s a b = s := by
  simp [follow, h]

/-- A `follow` on a missing edge inserts exactly the row `(a.id, b.id)`. -/
theorem follow_not_following (s : State) (a b : User)
    (h : is_following s a b = false) :
    follow s a b = { s with followers := (a.id, b.id) :: s.followers } := by
  simp [follow, h]

/-- Reading the `following` view: membership coincides with the presence of
the corresponding association-table row. -/
theorem mem_followingOf (s : State) (a : User) (i : Nat) :
    i ∈ followingOf s a ↔ (a.id, i) ∈ s.followers := by
  simp only [followingOf, List.mem_map, List.mem_filter, decide_eq_true_eq]
  constructor
  · rintro ⟨e, ⟨he, h1⟩, h2⟩
    have he2 : e = (a.id, i) := by
      cases e
      simp_all
    rwa [he2] at he
  · intro h
    exact ⟨(a.id, i), ⟨h, rfl⟩, rfl⟩

/-- Reading the `followers` view: membership coincides with the presence of
the corresponding association-table row. -/
theorem mem_followersOf (s : State) (b : User) (i : Nat) :
    i ∈ followersOf s b ↔ (i, b.id) ∈ s.followers := by
  simp only [followersOf, List.mem_map, List.mem_filter, decide_eq_true_eq]
  constructor
  · rintro ⟨e, ⟨he, h1⟩, h2⟩
    have he2 : e = (i, b.id) := by
      cases e
      simp_all
    rwa [he2] at he
  · intro h
    exact ⟨(i, b.id), ⟨h, rfl⟩, rfl⟩

/-! ### Claim theorems -/

/-- C2: for a stored querying user in a store with author referential
integrity, the timeline query returns exactly the stored posts whose
author is the querying user itself or a user it currently follows; in
particular every post authored by the user is in its own timeline. -/
theorem timeline_mem_iff (s : State) (u : User) (p : Post)
    (hu : u ∈ s.users)
    (hfk : ∀ q ∈ s.posts, ∃ a ∈ s.users, a.id = q.user_id) :
    p ∈ following_posts s u ↔
      p ∈ s.posts ∧ (p.user_id = u.id ∨ (u.id, p.user_id) ∈ s.followers) := by
  simp only [following_posts, mem_sortDesc, List.mem_filter, decide_eq_true_eq]
  constructor
  · rintro ⟨hp, a, ha, haid, hcond⟩
    refine ⟨hp, ?_⟩
    rcases hcond with ⟨f, hf, hfid, hedge⟩ | hself
    · right
      rw [hfid, haid] at hedge
      exact hedge
    · left
      rw [← haid, hself]
  · rintro ⟨hp, hcond⟩
    obtain ⟨a, ha, haid⟩ := hfk p hp
    refine ⟨hp, a, ha, haid, ?_⟩
    rcases hcond with hself | hedge
    · right
      rw [haid, hself]
    · left
      refine ⟨u, hu, rfl, ?_⟩
      rw [haid]
      exact hedge

/-- C2 witness: in the state where alice follows bob, bob's post is in
alice's timeline. -/
theorem timeline_mem_iff_witness :
    bobPost ∈ following_posts exStateF alice ↔
      bobPost ∈ exStateF.posts ∧
        (bobPost.user_id = alice.id ∨ (alice.id, bobPost.user_id) ∈ exStateF.followers) :=
  timeline_mem_iff exStateF alice bobPost (by decide) (by decide)

/-- C6: the timeline is sorted in non-increasing timestamp order — of any
two returned posts, the one with the later timestamp appears first. -/
theorem timeline_sorted_desc (s : State) (u : User) :
    (following_posts s u).Pairwise (fun p q => q.timestamp ≤ p.timestamp) :=
  pairwise_sortDesc _

/-- C5: for distinct users, after `follow(A, B)` the `is_following(A, B)`
check is true, and after `unfollow(A, B)` it is false. -/
theorem follow_unfollow_is_following (s : State) (a b : User) (_hab : a ≠ b) :
    is_following (follow s a b) a b = true ∧
    is_following (unfollow s a b) a b = false := by
  refine ⟨is_following_follow s a b, ?_⟩
  unfold unfollow
  by_cases h : (a.id, b.id) ∈ s.followers
  · simp [is_following, h, List.mem_filter]
  · simp [is_following, h]

/-- C5 witness: evaluated on alice and bob in the example state. -/
theorem follow_unfollow_is_following_witness :
    is_following (follow exState alice bob) alice bob = true ∧
    is_following (unfollow exState alice bob) alice bob = false :=
  follow_unfollow_is_following exState alice bob (by decide)

/-- C4: for distinct users not yet linked, following twice is idempotent —
the second call changes nothing and `followers_count(B)` rises by exactly
one over the two calls, not two. -/
theorem follow_idempotent (s : State) (a b : User) (_hab : a ≠ b)
    (h : is_following s a b = false) :
    follow (follow s a b) a b = follow s a b ∧
    followers_count (follow (follow s a b) a b) b = followers_count s b + 1 := by
  have h1 : follow (follow s a b) a b = follow s a b :=
    follow_of_following _ a b (is_following_follow s a b)
  refine ⟨h1, ?_⟩
  rw [h1, follow_not_following s a b h]
  simp [followers_count, List.filter_cons]

/-- C4 witness: evaluated on alice and bob in the example state. -/
theorem follow_idempotent_witness :
    follow (follow exState alice bob) alice bob = follow exState alice bob ∧
    followers_count (follow (follow exState alice bob) alice bob) bob =
      followers_count exState bob + 1 :=
  follow_idempotent exState alice bob (by decide) (by decide)

/-- C8: `unfollow` on a missing edge is a successful no-op — it raises no
error and leaves the store, in particular the edge set, unchanged. -/
theorem unfollow_noop (s : State) (a b : User)
    (h : is_following s a b = false) : unfollow s a b = s := by
  simp [unfollow, h]

/-- C8 witness: evaluated on alice and bob in the example state. -/
theorem unfollow_noop_witness : unfollow exState alice bob = exState :=
  unfollow_noop exState alice bob (by decide)

/-- C9: in every state and for every pair of users, `following` and
`followers` are converse views of the one shared association table —
B is in A's following view exactly when A is in B's followers view —
and a successful follow of a distinct, not-yet-followed user raises
`following_count(A)` and `followers_count(B)` by exactly one each. -/
theorem follow_edge_converse (s : State) (a b : User) :
    (b.id ∈ followingOf s a ↔ a.id ∈ followersOf s b) ∧
    (a ≠ b → is_following s a b = false →
      following_count (follow s a b) a = following_count s a + 1 ∧
      followers_count (follow s a b) b = followers_count s b + 1) := by
  refine ⟨by rw [mem_followingOf, mem_followersOf], ?_⟩
  intro _hab h
  constructor
  · rw [follow_not_following s a b h]
    simp [following_count, List.filter_cons]
  · rw [follow_not_following s a b h]
    simp [followers_count, List.filter_cons]

/-- C9 witness: the converse-views biconditional evaluated in the state
where the edge alice→bob is present (both sides true), and the count
increments evaluated on a fresh follow in the edge-free state. -/
theorem follow_edge_converse_witness :
    (bob.id ∈ followingOf exStateF alice ↔ alice.id ∈ followersOf exStateF bob) ∧
    following_count (follow exState alice bob) alice =
      following_count exState alice + 1 ∧
    followers_count (follow exState alice bob) bob =
      followers_count exState bob + 1 :=
  ⟨(follow_edge_converse exStateF alice bob).1,
   (follow_edge_converse exState alice bob).2 (by decide) (by decide)⟩

/-- C1: the `follow` view on a self-follow request flashes the warning but,
lacking a `return`, still calls `current_user.follow(user)`: the state
gains the self-edge `(1, 1)`, `following_count(alice)` rises from 0 to 1,
and the handler even flashes the success message afterwards — contrary to
the claim that the operation is rejected and the count unchanged. -/
theorem self_follow_route_creates_edge :
    (followRoute exState alice "alice").1.followers = [(1, 1)] ∧
    (followRoute exState alice "alice").2.1 =
      ["Youn cannot follow yourself!", "Now following alice!"] ∧
    following_count (followRoute exState alice "alice").1 alice = 1 ∧
    following_count exState alice = 0 ∧
    is_following (followRoute exState alice "alice").1 alice alice = true := by
  decide

/-- C3: registering a username or email that is already stored is rejected
by the form validators as a duplicate identity, and the store — in
particular the set of stored users — is exactly unchanged. -/
theorem register_duplicate_rejected (s : State) (name email pwd : String)
    (h : ∃ u ∈ s.users, u.username = name ∨ u.email = email) :
    register s name email pwd = (RegResult.duplicateIdentity, s) := by
  obtain ⟨u, hu, hdup⟩ := h
  rcases hdup with h1 | h2
  · have hv : validate_username s name = false := by
      unfold validate_username
      rcases hs : s.users.find? (fun x => decide (x.username = name)) with _ | v
      · rw [List.find?_eq_none] at hs
        exact absurd h1 (by simpa using hs u hu)
      · simp [hs]
    simp [register, hv]
  · have hv : validate_email s email = false := by
      unfold validate_email
      rcases hs : s.users.find? (fun x => decide (x.email = email)) with _ | v
      · rw [List.find?_eq_none] at hs
        exact absurd h2 (by simpa using hs u hu)
      · simp [hs]
    simp [register, hv]

/-- C3 witness: re-registering the taken username alice is rejected and the
example state is unchanged. -/
theorem register_duplicate_rejected_witness :
    register exState "alice" "fresh@example.com" "pw" =
      (RegResult.duplicateIdentity, exState) :=
  register_duplicate_rejected exState "alice" "fresh@example.com" "pw"
    ⟨alice, by decide, Or.inl (by decide)⟩

/-- C7: a successful registration followed by a credential check with the
same username and password succeeds and returns exactly the user the
registration created. -/
theorem register_then_verify (s : State) (name email pwd : String)
    (u : User) (s2 : State)
    (h : register s name email pwd = (RegResult.ok u, s2)) :
    verify_credentials s2 name pwd = some u := by
  unfold register at h
  by_cases hv : (validate_username s name && validate_email s email) = true
  · rw [if_pos hv] at h
    have h1 : new_user s name email pwd = u := by
      have hfst := congrArg Prod.fst h
      simpa using hfst
    have h2 : ({ s with users := s.users ++ [new_user s name email pwd] } : State) = s2 :=
      congrArg Prod.snd h
    subst h1
    subst h2
    have hnone : s.users.find? (fun x => decide (x.username = name)) = none := by
      have hvn : validate_username s name = true := by
        rw [Bool.and_eq_true] at hv
        exact hv.1
      unfold validate_username at hvn
      exact Option.isNone_iff_eq_none.mp hvn
    unfold verify_credentials
    rw [List.find?_append, hnone]
    simp [new_user, check_password, check_password_hash, List.find?]
  · rw [if_neg hv] at h
    have := congrArg Prod.fst h
    simp at this

/-- C7 witness: registering carol in the example state and logging in with
the same password returns the created user. -/
theorem register_then_verify_witness :
    verify_credentials (register exState "carol" "carol@example.com" "pw").2 "carol" "pw" =
      some (new_user exState "carol" "carol@example.com" "pw") :=
  register_then_verify exState "carol" "carol@example.com" "pw"
    (new_user exState "carol" "carol@example.com" "pw")
    (register exState "carol" "carol@example.com" "pw").2 (by decide)

/-- C10: for a stored user (primary keys being unique), a reset token
generated with the default 600-second lifetime and verified before its
expiry under the same secret loads that same user; and any token whose
decoding fails verifies to none. -/
theorem reset_token_roundtrip (s : State) (u : User) (secret : String)
    (now now2 : Nat) (hu : u ∈ s.users) (hnd : (s.users.map User.id).Nodup)
    (hexp : now2 < now + 600) :
    verify_reset_password_token s (get_reset_password_token u secret now 600) secret now2 =
      some u ∧
    ∀ (t : Token) (sec : String) (n : Nat),
      jwt_decode t sec n = none → verify_reset_password_token s t sec n = none := by
  constructor
  · have hdec : jwt_decode (get_reset_password_token u secret now 600) secret now2 =
        some u.id := by
      unfold jwt_decode get_reset_password_token
      rw [if_pos]
      exact ⟨rfl, hexp⟩
    unfold verify_reset_password_token
    rw [hdec]
    exact find_by_id s.users u hu hnd
  · intro t sec n hdec
    unfold verify_reset_password_token
    rw [hdec]

/-- C10 witness: bob's token, generated at time 100 and checked at time 400
with the same secret, loads bob in the example state. -/
theorem reset_token_roundtrip_witness :
    verify_reset_password_token exState
        (get_reset_password_token bob "s3cr3t" 100 600) "s3cr3t" 400 = some bob ∧
    ∀ (t : Token) (sec : String) (n : Nat),
      jwt_decode t sec n = none → verify_reset_password_token exState t sec n = none :=
  reset_token_roundtrip exState bob "s3cr3t" 100 400 (by decide) (by decide) (by decide)

end Microblog
